import Mathlib

/-!
Verification of the 20x20 raster-image transformation engine of the
"MLP identify 3 and 2" tools: geometric transforms (centroid recentering,
translation, rescale-with-crop/pad), region-based stochastic masking, the
class-mean difference analyzer, and the batch orchestrator.

Numeric values carried by images are modelled as exact rationals (`ℚ`); the
source stores them as floating-point numbers but every property checked here
is about the exact arithmetic the code expresses.  An image is a function
from (row, column) indices to intensities; array cells outside the fixed
grid never influence a result.
-/

/-- Python 3 `round` to an integer: round half to even (banker's rounding),
as used by `int(round(...))` in `ImageProcessor.center_of_mass_shift`. -/
def pyRound (q : ℚ) : ℤ :=
  let f := ⌊q⌋
  let frac := q - f
  if frac < 1 / 2 then f
  else if 1 / 2 < frac then f + 1
  else if f % 2 = 0 then f else f + 1

/-- Python `int(...)` applied to a number: truncation toward zero, as used by
`int(linhas_orig * escala)` in `redimensionar_imagem_numpy`. -/
def pyInt (q : ℚ) : ℤ := if q < 0 then -⌊-q⌋ else ⌊q⌋

/-- A raster image: intensities indexed by (row, column). The engine only ever
reads and writes indices inside the fixed square grid. -/
abbrev Raster := ℕ → ℕ → ℚ

/-- `ImageProcessor._shift_image(img, dy, dx)` (analisador_dados.py:50-68):
move the image by `(dy, dx)`, filling vacated cells with 0.  The source
computes clamped source/destination slice bounds and copies the overlap
block; a destination cell `(r, c)` inside the copied block receives
`img[r - dst_y_start + src_y_start][c - dst_x_start + src_x_start]`. -/
def shift_image (N : ℕ) (img : Raster) (dy dx : ℤ) : Raster :=
  let srcYs : ℤ := max 0 (-dy)
  let srcXs : ℤ := max 0 (-dx)
  let dstYs : ℤ := max 0 dy
  let dstYe : ℤ := min (N : ℤ) ((N : ℤ) + dy)
  let dstXs : ℤ := max 0 dx
  let dstXe : ℤ := min (N : ℤ) ((N : ℤ) + dx)
  fun r c =>
    if dstYs ≤ (r : ℤ) ∧ (r : ℤ) < dstYe ∧ dstXs ≤ (c : ℤ) ∧ (c : ℤ) < dstXe then
      img (((r : ℤ) - dstYs + srcYs).toNat) (((c : ℤ) - dstXs + srcXs).toNat)
    else 0

/-- `transladar_imagem(img, shift_x, shift_y)` (tools-for-data/test.py:17-30)
for a square `N`x`N` image: same overlap-copy as `shift_image`, but guarded by
`src_y_start < src_y_end and src_x_start < src_x_end`; when the guard fails
the result stays all zero. -/
def transladar_imagem (N : ℕ) (img : Raster) (sx sy : ℤ) : Raster :=
  let srcYs : ℤ := max 0 (-sy)
  let srcYe : ℤ := min (N : ℤ) ((N : ℤ) - sy)
  let srcXs : ℤ := max 0 (-sx)
  let srcXe : ℤ := min (N : ℤ) ((N : ℤ) - sx)
  let dstYs : ℤ := max 0 sy
  let dstYe : ℤ := min (N : ℤ) ((N : ℤ) + sy)
  let dstXs : ℤ := max 0 sx
  let dstXe : ℤ := min (N : ℤ) ((N : ℤ) + sx)
  fun r c =>
    if (srcYs < srcYe ∧ srcXs < srcXe) ∧
        dstYs ≤ (r : ℤ) ∧ (r : ℤ) < dstYe ∧ dstXs ≤ (c : ℤ) ∧ (c : ℤ) < dstXe then
      img (((r : ℤ) - dstYs + srcYs).toNat) (((c : ℤ) - dstXs + srcXs).toNat)
    else 0

/-- `img.sum()`: total mass of an `N`x`N` image. -/
def totalMass (N : ℕ) (img : Raster) : ℚ :=
  ∑ r ∈ Finset.range N, ∑ c ∈ Finset.range N, img r c

/-- `cy = np.sum(rows * img) / total_mass`: mass-weighted mean row index. -/
def centroidY (N : ℕ) (img : Raster) : ℚ :=
  (∑ r ∈ Finset.range N, ∑ c ∈ Finset.range N, (r : ℚ) * img r c) / totalMass N img

/-- `cx = np.sum(cols * img) / total_mass`: mass-weighted mean column index. -/
def centroidX (N : ℕ) (img : Raster) : ℚ :=
  (∑ r ∈ Finset.range N, ∑ c ∈ Finset.range N, (c : ℚ) * img r c) / totalMass N img

/-- Loop body of `ImageProcessor.center_of_mass_shift` (analisador_dados.py:
20-48) for a single image: if the total mass is ≤ 0 the image is returned
unchanged; otherwise shift by `int(round(img_size/2 - 0.5 - centroid))` in
each axis via `_shift_image`. -/
def center_of_mass_shift (N : ℕ) (img : Raster) : Raster :=
  if totalMass N img ≤ 0 then img
  else
    shift_image N img
      (pyRound ((N : ℚ) / 2 - 1 / 2 - centroidY N img))
      (pyRound ((N : ℚ) / 2 - 1 / 2 - centroidX N img))

/-- Nearest-neighbor index mapping `(np.arange(novas) * (orig / novas))
.astype(int)` used by `redimensionar_imagem_numpy`: new index `i` reads
original index `⌊i * (20 / n)⌋` (values are nonnegative, so `astype(int)`
truncation is a floor).  The `tools-for-data` variant additionally clips the
result to `[0, 19]`, which never changes it since `⌊i * 20 / n⌋ ≤ 19` for
`i < n`. -/
def resampleIdx (n : ℕ) (i : ℕ) : ℕ := (⌊(i : ℚ) * (20 / (n : ℚ))⌋).toNat

/-- `redimensionar_imagem_numpy(imagem, escala)` (test.py:9-35) on a 20x20
image: `escala = 1.0` is the identity; otherwise resample to an
`int(20*escala)`-sized square grid by nearest neighbor, then copy the block
of it around its integer center `novas // 2` into the middle of a fresh
20x20 zero canvas, using the clamped slice bounds computed by the source. -/
def redimensionar_imagem_numpy (img : Raster) (escala : ℚ) : Raster :=
  if escala = 1 then img
  else
    let novasLinhas : ℕ := (pyInt (20 * escala)).toNat
    let novasCols : ℕ := (pyInt (20 * escala)).toNat
    let resampled : Raster := fun i j => img (resampleIdx novasLinhas i) (resampleIdx novasCols j)
    let centerR : ℕ := novasLinhas / 2
    let centerC : ℕ := novasCols / 2
    let startRsrc : ℤ := max 0 ((centerR : ℤ) - 10)
    let endRsrc : ℤ := min (novasLinhas : ℤ) ((centerR : ℤ) + 10)
    let startCsrc : ℤ := max 0 ((centerC : ℤ) - 10)
    let endCsrc : ℤ := min (novasCols : ℤ) ((centerC : ℤ) + 10)
    let startRdst : ℤ := max 0 (10 - ((centerR : ℤ) - startRsrc))
    let endRdst : ℤ := startRdst + (endRsrc - startRsrc)
    let startCdst : ℤ := max 0 (10 - ((centerC : ℤ) - startCsrc))
    let endCdst : ℤ := startCdst + (endCsrc - startCsrc)
    fun r c =>
      if r < 20 ∧ c < 20 ∧ 0 < endRdst - startRdst ∧ 0 < endCdst - startCdst ∧
          startRdst ≤ (r : ℤ) ∧ (r : ℤ) < endRdst ∧ startCdst ≤ (c : ℤ) ∧ (c : ℤ) < endCdst then
        resampled (((r : ℤ) - startRdst + startRsrc).toNat) (((c : ℤ) - startCdst + startCsrc).toNat)
      else 0

/-- Modelled from the spec claim's words: re-fit an `n`x`n` resampled grid to
the original 20x20 canvas centered on the (integer) midpoint `n / 2` of the
resampled grid — center-crop if the resampled grid is larger, zero-pad if it
is smaller.  Output pixel `(r, c)` reads resampled pixel
`(r - 10 + n/2, c - 10 + n/2)` when that lies on the resampled grid and 0
otherwise. -/
def refitCentered (resampled : Raster) (n : ℕ) : Raster :=
  fun r c =>
    if r < 20 ∧ c < 20 ∧
        0 ≤ (r : ℤ) - 10 + ((n / 2 : ℕ) : ℤ) ∧ (r : ℤ) - 10 + ((n / 2 : ℕ) : ℤ) < (n : ℤ) ∧
        0 ≤ (c : ℤ) - 10 + ((n / 2 : ℕ) : ℤ) ∧ (c : ℤ) - 10 + ((n / 2 : ℕ) : ℤ) < (n : ℤ) then
      resampled (((r : ℤ) - 10 + ((n / 2 : ℕ) : ℤ)).toNat) (((c : ℤ) - 10 + ((n / 2 : ℕ) : ℤ)).toNat)
    else 0

/-- Modelled from the spec claim's words: resample onto a
`round(scale * 20)` x `round(scale * 20)` grid with the nearest-neighbor
mapping `newIndex ↦ ⌊newIndex * 20 / newN⌋`, then re-fit to the 20x20
canvas centered on the resampled grid's midpoint. -/
def rescaleSpecRound (img : Raster) (escala : ℚ) : Raster :=
  let n : ℕ := (round (20 * escala)).toNat
  refitCentered (fun i j => img (resampleIdx n i) (resampleIdx n j)) n

/-- The amended form of the previous description: the new grid side is
`⌊scale * 20⌋` (truncation, as `int()` computes it on the nonnegative scales
admitted by the zoom slider), not `round(scale * 20)`. -/
def rescaleSpecFloor (img : Raster) (escala : ℚ) : Raster :=
  let n : ℕ := (pyInt (20 * escala)).toNat
  refitCentered (fun i j => img (resampleIdx n i) (resampleIdx n j)) n

/-- Concrete single-pixel test image used to separate the two rescale
descriptions. -/
def imgOneHot : Raster := fun r c => if r = 0 ∧ c = 0 then 1 else 0

/-- `EditorImagensApp.aplicar_efeito(img, mask, modo, densidade)`
(tools-for-data/test.py:332-341).  The two fresh 20x20 uniform draws of the
call — `np.random.rand(20,20) < densidade/100` for the density mask and
`np.random.rand(20,20)` for the noise — enter as explicit arguments
`rand1`, `rand2`; `intensidade` models `self.var_intensidade_global.get()`.
If the area mask selects nothing the image is returned as is; otherwise the
final mask is the AND of the area mask and the density draw, and selected
pixels become 0 (`"preto"`), 1 (`"branco"`), or `rand2 * intensidade`
(noise). -/
def aplicar_efeito (img : Raster) (mask : ℕ → ℕ → Bool) (modo : String) (densidade : ℚ)
    (rand1 rand2 : Raster) (intensidade : ℚ) : Raster :=
  if ∀ r ∈ Finset.range 20, ∀ c ∈ Finset.range 20, mask r c = false then img
  else
    let maskFinal : ℕ → ℕ → Bool := fun r c => mask r c && decide (rand1 r c < densidade / 100)
    fun r c =>
      if maskFinal r c = true then
        if modo = "preto" then 0
        else if modo = "branco" then 1
        else rand2 r c * intensidade
      else img r c

/-- Circular region mask `np.sqrt((x-9.5)**2 + (y-9.5)**2) > raio`
(tools-for-data/test.py:314-317, test.py:231-233), with `x` the column and
`y` the row index on the 20x20 grid.  Modelled by the equivalent squared
comparison, exact in `ℚ`; the admissible radii (slider range `[0, 15]`) are
nonnegative, where `√(d²) > raio ↔ d² > raio²` — the claim theorem proves
exactly this equivalence with the Euclidean-distance formulation. -/
def circularMask (raio : ℚ) : ℕ → ℕ → Bool :=
  fun r c => decide (raio ^ 2 < ((c : ℚ) - 19 / 2) ^ 2 + ((r : ℚ) - 19 / 2) ^ 2)

/-- A flattened image row of width `n`, the shape `ImageProcessor.fit`
consumes (`n = 400` for the 20x20 dataset; `fit` itself never uses the
width). -/
abbrev FlatImage (n : ℕ) := Fin n → ℚ

/-- Boolean-mask row selection `X[y == lbl]`: the images whose parallel label
equals `lbl`. -/
def labelGroup (n : ℕ) (lbl : ℤ) (X : List (FlatImage n)) (y : List ℤ) : List (FlatImage n) :=
  ((X.zip y).filter (fun p => decide (p.2 = lbl))).map Prod.fst

/-- `.mean(axis=0)`: element-wise mean of a list of image rows.  On an empty
list numpy emits a runtime *warning* and yields an all-NaN row; NaN has no
rational counterpart, so the all-NaN outcome is modelled as `none`. -/
def meanImage (n : ℕ) (G : List (FlatImage n)) : Option (FlatImage n) :=
  if G.isEmpty then none
  else some (fun p => (G.map (fun v => v p)).sum / (G.length : ℚ))

/-- `np.max` of a difference map.  Seeded fold; the seed 0 never exceeds the
true maximum because every entry of a difference map is an absolute value,
hence nonnegative. -/
def maxEntry (n : ℕ) (d : FlatImage n) : ℚ := (List.ofFn d).foldr max 0

/-- The state `ImageProcessor.fit` leaves behind: per-class means, the
absolute difference map, its maximum, and the `is_fitted` flag.  `none`
stands for an all-NaN array (respectively NaN scalar). -/
structure AlignModel (n : ℕ) where
  mean2 : Option (FlatImage n)
  mean3 : Option (FlatImage n)
  diffMap : Option (FlatImage n)
  maxDiff : Option ℚ
  isFitted : Bool

/-- `ImageProcessor.fit(X_aligned, y)` (analisador_dados.py:70-76): means of
the label-2 and label-3 groups, `diff_map = |mean_2 - mean_3|`,
`max_diff = np.max(diff_map)`, and `is_fitted = True` — unconditionally:
an empty group silently propagates NaN (`none`) through the difference map
and maximum, and still marks the model as fitted. -/
def fit (n : ℕ) (X : List (FlatImage n)) (y : List ℤ) : AlignModel n :=
  let m2 := meanImage n (labelGroup n 2 X y)
  let m3 := meanImage n (labelGroup n 3 X y)
  let dm : Option (FlatImage n) :=
    match m2, m3 with
    | some a, some b => some (fun p => |a p - b p|)
    | _, _ => none
  let md : Option ℚ :=
    match dm with
    | some d => some (maxEntry n d)
    | none => none
  ⟨m2, m3, dm, md, true⟩

/-- `ImageProcessor.get_mask(threshold_percentage)` (analisador_dados.py:
78-82): `None` when not fitted; otherwise the cutoff is
`(threshold/100) * max_diff` and the mask keeps the pixels with
`diff_map >= cutoff`.  A NaN (`none`) difference map compares false
everywhere, as numpy's `>=` does. -/
def get_mask (n : ℕ) (M : AlignModel n) (threshold : ℚ) : Option (Fin n → Bool) :=
  if M.isFitted = false then none
  else
    some (fun p =>
      match M.diffMap, M.maxDiff with
      | some d, some m => decide (threshold / 100 * m ≤ d p)
      | _, _ => false)

/-- Whether pixel `p` is selected by `get_mask` at threshold `t` (an absent
mask selects nothing). -/
def selPix (n : ℕ) (M : AlignModel n) (t : ℚ) (p : Fin n) : Bool :=
  ((get_mask n M t).getD (fun _ => false)) p

/-- The all-zero raster, the default used when reading a dataset list out of
range. -/
def raster0 : Raster := fun _ _ => 0

/-- `EditorImagensApp.aplicar_batch` (tools-for-data/test.py:367-376): if the
range is invalid (`ini < 0 or fim >= len(dados_raw)`) nothing happens;
otherwise for each `i` in `range(ini, fim+1)` the pipeline output
`processar_imagem(dados_raw[i])` is stored at index `i` of
`dados_processados`.  The single-image pipeline enters as the parameter
`f`; the pair returned is (raw array, processed array). -/
def aplicar_batch (f : Raster → Raster) (dadosRaw dadosProcessados : List Raster)
    (ini fim : ℤ) : List Raster × List Raster :=
  if ini < 0 ∨ (dadosRaw.length : ℤ) ≤ fim then (dadosRaw, dadosProcessados)
  else
    (dadosRaw,
      (List.range' ini.toNat ((fim + 1 - ini).toNat)).foldl
        (fun acc i => acc.set i (f (dadosRaw.getD i raster0))) dadosProcessados)

/-- Concrete two-image, two-label dataset (width 1) on which `fit` succeeds. -/
def sampleX : List (FlatImage 1) := [fun _ => 1, fun _ => 0]

/-- Labels for `sampleX`: one image of class 2, one of class 3. -/
def sampleY : List ℤ := [2, 3]

/-- Concrete single-class dataset: one image, labelled 2 only, so the
label-3 group is empty. -/
def degenerateX : List (FlatImage 1) := [fun _ => 1]

/-- Labels for `degenerateX`. -/
def degenerateY : List ℤ := [2]

/-- Uniform all-ones raster; on a 2x2 grid its centroid is exactly the grid
center `(1/2, 1/2)`. -/
def imgUniform : Raster := fun _ _ => 1

/-- Concrete ramp image: pixel (r, c) holds the flat index `r * 20 + c`. -/
def imgRamp : Raster := fun r c => (r * 20 + c : ℚ)

section HelperLemmas

lemma le_foldr_max {l : List ℚ} {a : ℚ} (b : ℚ) (h : a ∈ l) : a ≤ l.foldr max b := by
  induction l with
  | nil => cases h
  | cons x xs ih =>
    rcases List.mem_cons.mp h with rfl | hmem
    · exact le_max_left _ _
    · exact le_trans (ih hmem) (le_max_right _ _)

lemma seed_le_foldr_max (l : List ℚ) (b : ℚ) : b ≤ l.foldr max b := by
  induction l with
  | nil => exact le_refl b
  | cons x xs ih => exact le_trans ih (le_max_right _ _)

lemma shift_image_zero (N : ℕ) (img : Raster) (r c : ℕ) (hr : r < N) (hc : c < N) :
    shift_image N img 0 0 r c = img r c := by
  simp only [shift_image]
  rw [if_pos (by omega)]
  have h1 : ((r : ℤ) - max 0 0 + max 0 (-0)).toNat = r := by omega
  have h2 : ((c : ℤ) - max 0 0 + max 0 (-0)).toNat = c := by omega
  rw [h1, h2]

end HelperLemmas

/-- C7: for every `N`x`N` image, translating by `dx = 3`, `dy = 0` (via
`transladar_imagem(img, 3, 0)` and equally via `_shift_image(img, 0, 3)`)
zeroes columns 0-2 and places original column `c - 3` at every column
`c ≥ 3`; the rightmost 3 original columns are dropped because no output
column reads them. -/
theorem C7_translate_dx3 (N : ℕ) (img : Raster) (r c : ℕ) (hr : r < N) (hc : c < N) :
    transladar_imagem N img 3 0 r c = (if c < 3 then 0 else img r (c - 3)) ∧
    shift_image N img 0 3 r c = (if c < 3 then 0 else img r (c - 3)) := by
  constructor
  · simp only [transladar_imagem]
    by_cases h3 : c < 3
    · rw [if_pos h3, if_neg (by omega)]
    · rw [if_neg h3, if_pos (by omega)]
      have h1 : ((r : ℤ) - max 0 0 + max 0 (-0)).toNat = r := by omega
      have h2 : ((c : ℤ) - max 0 3 + max 0 (-3)).toNat = c - 3 := by omega
      rw [h1, h2]
  · simp only [shift_image]
    by_cases h3 : c < 3
    · rw [if_pos h3, if_neg (by omega)]
    · rw [if_neg h3, if_pos (by omega)]
      have h1 : ((r : ℤ) - max 0 0 + max 0 (-0)).toNat = r := by omega
      have h2 : ((c : ℤ) - max 0 3 + max 0 (-3)).toNat = c - 3 := by omega
      rw [h1, h2]

/-- C7 witness: the translation law evaluated on a concrete 20x20 image at
pixel (0, 5). -/
theorem C7_translate_dx3_witness :
    ((0 : ℕ) < 20 ∧ (5 : ℕ) < 20) ∧
      (transladar_imagem 20 imgRamp 3 0 0 5 = (if (5 : ℕ) < 3 then 0 else imgRamp 0 (5 - 3)) ∧
        shift_image 20 imgRamp 0 3 0 5 = (if (5 : ℕ) < 3 then 0 else imgRamp 0 (5 - 3))) :=
  ⟨⟨by decide, by decide⟩, C7_translate_dx3 20 imgRamp 0 5 (by decide) (by decide)⟩

/-- C5: at density 100 the density draw (`np.random.rand`, always `< 1`)
never deselects a pixel, so with mode `"preto"` (effect zero) every
mask-selected pixel of the result is exactly 0 and with mode `"branco"`
(effect one) exactly 1, for every outcome of the random draws. -/
theorem C5_density100_exact (img : Raster) (mask : ℕ → ℕ → Bool) (rand1 rand2 : Raster)
    (intensidade : ℚ) (r c : ℕ) (hr : r < 20) (hc : c < 20)
    (hrand : rand1 r c < 1) (hm : mask r c = true) :
    aplicar_efeito img mask "preto" 100 rand1 rand2 intensidade r c = 0 ∧
      aplicar_efeito img mask "branco" 100 rand1 rand2 intensidade r c = 1 := by
  have hnotall : ¬ ∀ r' ∈ Finset.range 20, ∀ c' ∈ Finset.range 20, mask r' c' = false := by
    intro hall
    have := hall r (Finset.mem_range.mpr hr) c (Finset.mem_range.mpr hc)
    rw [hm] at this
    cases this
  have hfin : (mask r c && decide (rand1 r c < (100 : ℚ) / 100)) = true := by
    rw [hm]
    simp only [Bool.true_and, decide_eq_true_eq]
    norm_num [hrand]
  constructor
  · simp only [aplicar_efeito, if_neg hnotall]
    rw [if_pos hfin]
    simp
  · simp only [aplicar_efeito, if_neg hnotall]
    rw [if_pos hfin]
    simp

/-- C5 witness: a concrete image, full mask and a zero random draw at pixel
(2, 3). -/
theorem C5_density100_exact_witness :
    ((2 : ℕ) < 20 ∧ (3 : ℕ) < 20 ∧ raster0 2 3 < 1 ∧ (fun _ _ => true) 2 3 = true) ∧
      (aplicar_efeito imgRamp (fun _ _ => true) "preto" 100 raster0 raster0 1 2 3 = 0 ∧
        aplicar_efeito imgRamp (fun _ _ => true) "branco" 100 raster0 raster0 1 2 3 = 1) :=
  ⟨⟨by decide, by decide, by norm_num [raster0], rfl⟩,
    C5_density100_exact imgRamp (fun _ _ => true) raster0 raster0 1 2 3
      (by decide) (by decide) (by norm_num [raster0]) rfl⟩

/-- C6: at density 0 the density comparison `rand < 0/100` fails at every
pixel (uniform draws are ≥ 0), so `aplicar_efeito` is an exact no-op for
every mode, every area mask, every intensity and every outcome of the
random draws. -/
theorem C6_density0_noop (img : Raster) (mask : ℕ → ℕ → Bool) (modo : String)
    (rand1 rand2 : Raster) (intensidade : ℚ) (r c : ℕ) (hrand : 0 ≤ rand1 r c) :
    aplicar_efeito img mask modo 0 rand1 rand2 intensidade r c = img r c := by
  simp only [aplicar_efeito]
  split
  · rfl
  · simp only [ite_eq_right_iff, Bool.and_eq_true, decide_eq_true_eq, zero_div, and_imp]
    intro _ hlt
    exact absurd hlt (not_lt.mpr hrand)

/-- C6 witness: density 0 leaves a concrete pixel of a concrete image
untouched under noise mode. -/
theorem C6_density0_noop_witness :
    (0 ≤ raster0 4 4) ∧
      aplicar_efeito imgRamp (fun _ _ => true) "ruido" 0 raster0 raster0 1 4 4 = imgRamp 4 4 :=
  ⟨by norm_num [raster0],
    C6_density0_noop imgRamp (fun _ _ => true) "ruido" raster0 raster0 1 4 4
      (by norm_num [raster0])⟩

/-- C10: a pixel not selected by the area mask is never modified by
`aplicar_efeito`, whatever the mode, density, intensity and random draws:
the final mask is the AND of the area mask with the density draw, and
unselected pixels keep their input value. -/
theorem C10_outside_mask_untouched (img : Raster) (mask : ℕ → ℕ → Bool) (modo : String)
    (densidade intensidade : ℚ) (rand1 rand2 : Raster) (r c : ℕ)
    (hm : mask r c = false) :
    aplicar_efeito img mask modo densidade rand1 rand2 intensidade r c = img r c := by
  simp only [aplicar_efeito]
  split
  · rfl
  · simp [hm]

/-- C10 witness: an unmasked pixel survives a density-100 blackout. -/
theorem C10_outside_mask_untouched_witness :
    ((fun _ _ => false) 7 8 = false) ∧
      aplicar_efeito imgRamp (fun _ _ => false) "preto" 100 raster0 raster0 1 7 8 =
        imgRamp 7 8 :=
  ⟨rfl, C10_outside_mask_untouched imgRamp (fun _ _ => false) "preto" 100 1 raster0 raster0 7 8 rfl⟩

/-- C8: for every nonnegative radius, the circular selector selects exactly
the pixels whose Euclidean distance from the continuous grid center
(9.5, 9.5) is strictly greater than the radius — the exterior, never the
interior — and in particular a pixel at distance exactly the radius is not
selected. -/
theorem C8_circular_exterior (raio : ℚ) (h : 0 ≤ raio) (r c : ℕ) :
    (circularMask raio r c = true ↔
      (raio : ℝ) < Real.sqrt (((c : ℝ) - 19 / 2) ^ 2 + ((r : ℝ) - 19 / 2) ^ 2)) ∧
      (Real.sqrt (((c : ℝ) - 19 / 2) ^ 2 + ((r : ℝ) - 19 / 2) ^ 2) = (raio : ℝ) →
        circularMask raio r c = false) := by
  have hsq : ((c : ℝ) - 19 / 2) ^ 2 + ((r : ℝ) - 19 / 2) ^ 2 =
      ((((c : ℚ) - 19 / 2) ^ 2 + ((r : ℚ) - 19 / 2) ^ 2 : ℚ) : ℝ) := by
    push_cast
    ring
  have hnn : (0 : ℝ) ≤ ((c : ℝ) - 19 / 2) ^ 2 + ((r : ℝ) - 19 / 2) ^ 2 := by positivity
  have hr0 : (0 : ℝ) ≤ (raio : ℚ) := by exact_mod_cast h
  have key : circularMask raio r c = true ↔
      (raio : ℝ) < Real.sqrt (((c : ℝ) - 19 / 2) ^ 2 + ((r : ℝ) - 19 / 2) ^ 2) := by
    rw [Real.lt_sqrt hr0, hsq]
    simp only [circularMask, decide_eq_true_eq]
    constructor
    · intro hlt
      exact_mod_cast hlt
    · intro hlt
      exact_mod_cast hlt
  refine ⟨key, fun heq => ?_⟩
  rw [Bool.eq_false_iff]
  intro htrue
  have := key.mp htrue
  rw [heq] at this
  exact lt_irrefl _ this

/-- C8 witness: the equivalence instantiated at radius 0 and pixel (0, 0). -/
theorem C8_circular_exterior_witness :
    (0 ≤ (0 : ℚ)) ∧
      ((circularMask 0 0 0 = true ↔
          ((0 : ℚ) : ℝ) <
            Real.sqrt ((((0 : ℕ) : ℝ) - 19 / 2) ^ 2 + (((0 : ℕ) : ℝ) - 19 / 2) ^ 2)) ∧
        (Real.sqrt ((((0 : ℕ) : ℝ) - 19 / 2) ^ 2 + (((0 : ℕ) : ℝ) - 19 / 2) ^ 2) = ((0 : ℚ) : ℝ) →
          circularMask 0 0 0 = false)) :=
  ⟨le_refl 0, C8_circular_exterior 0 (le_refl 0) 0 0⟩

/-- pyRound of zero is zero. -/
theorem pyRound_zero : pyRound 0 = 0 := by
  norm_num [pyRound]

/-- C3: `center_of_mass_shift` on one `N`x`N` image is the identity when the
total mass is ≤ 0, and otherwise translates by the banker-rounded integer
shift `round((N-1)/2 - centroid)` in each axis; in particular an image of
positive mass whose centroid is already exactly `((N-1)/2, (N-1)/2)` comes
back unchanged. -/
theorem C3_recenter_by_centroid (N : ℕ) (img : Raster) (r c : ℕ) (hr : r < N) (hc : c < N) :
    (center_of_mass_shift N img r c =
      if totalMass N img ≤ 0 then img r c
      else
        shift_image N img (pyRound (((N : ℚ) - 1) / 2 - centroidY N img))
          (pyRound (((N : ℚ) - 1) / 2 - centroidX N img)) r c) ∧
    (0 < totalMass N img → centroidY N img = ((N : ℚ) - 1) / 2 →
      centroidX N img = ((N : ℚ) - 1) / 2 → center_of_mass_shift N img r c = img r c) := by
  have hYarg : (N : ℚ) / 2 - 1 / 2 - centroidY N img = ((N : ℚ) - 1) / 2 - centroidY N img := by
    ring
  have hXarg : (N : ℚ) / 2 - 1 / 2 - centroidX N img = ((N : ℚ) - 1) / 2 - centroidX N img := by
    ring
  constructor
  · simp only [center_of_mass_shift, hYarg, hXarg]
    split
    · rfl
    · rfl
  · intro hpos hcy hcx
    have hY0 : (N : ℚ) / 2 - 1 / 2 - centroidY N img = 0 := by
      rw [hcy]
      ring
    have hX0 : (N : ℚ) / 2 - 1 / 2 - centroidX N img = 0 := by
      rw [hcx]
      ring
    simp only [center_of_mass_shift, if_neg (not_le.mpr hpos), hY0, hX0, pyRound_zero]
    exact shift_image_zero N img r c hr hc

/-- C3 witness: the all-ones 2x2 image has positive mass and centroid
exactly at the grid center (1/2, 1/2), and recentering leaves pixel (0, 0)
unchanged. -/
theorem C3_recenter_by_centroid_witness :
    ((0 : ℕ) < 2 ∧ 0 < totalMass 2 imgUniform ∧
        centroidY 2 imgUniform = ((2 : ℚ) - 1) / 2 ∧
        centroidX 2 imgUniform = ((2 : ℚ) - 1) / 2) ∧
      ((center_of_mass_shift 2 imgUniform 0 0 =
          if totalMass 2 imgUniform ≤ 0 then imgUniform 0 0
          else
            shift_image 2 imgUniform (pyRound (((2 : ℚ) - 1) / 2 - centroidY 2 imgUniform))
              (pyRound (((2 : ℚ) - 1) / 2 - centroidX 2 imgUniform)) 0 0) ∧
        (0 < totalMass 2 imgUniform → centroidY 2 imgUniform = ((2 : ℚ) - 1) / 2 →
          centroidX 2 imgUniform = ((2 : ℚ) - 1) / 2 →
          center_of_mass_shift 2 imgUniform 0 0 = imgUniform 0 0)) :=
  ⟨⟨by norm_num, by norm_num [totalMass, imgUniform, Finset.sum_range_succ],
      by norm_num [centroidY, totalMass, imgUniform, Finset.sum_range_succ],
      by norm_num [centroidX, totalMass, imgUniform, Finset.sum_range_succ]⟩,
    C3_recenter_by_centroid 2 imgUniform 0 0 (by norm_num) (by norm_num)⟩

/-- C1: on any dataset where both label groups are nonempty (a fitted
model), `get_mask 0` selects every pixel — the difference map is a map of
absolute values, hence ≥ the zero cutoff — and for thresholds
`0 ≤ t1 < t2 ≤ 95` every pixel selected at `t2` is also selected at `t1`
(the selected set shrinks monotonically), because the cutoff
`(t/100) * max_diff` is monotone in `t` for the nonnegative `max_diff`. -/
theorem C1_importance_mask_monotone (n : ℕ) (X : List (FlatImage n)) (y : List ℤ)
    (h2 : (labelGroup n 2 X y).isEmpty = false)
    (h3 : (labelGroup n 3 X y).isEmpty = false) :
    (∀ p, selPix n (fit n X y) 0 p = true) ∧
      (∀ t1 t2 : ℚ, 0 ≤ t1 → t2 ≤ 95 → t1 < t2 → ∀ p,
        selPix n (fit n X y) t2 p = true → selPix n (fit n X y) t1 p = true) := by
  set G2 := labelGroup n 2 X y with hG2
  set G3 := labelGroup n 3 X y with hG3
  set a : FlatImage n := fun p => (G2.map (fun v => v p)).sum / (G2.length : ℚ) with ha
  set b : FlatImage n := fun p => (G3.map (fun v => v p)).sum / (G3.length : ℚ) with hb
  set d : FlatImage n := fun p => |a p - b p| with hd
  have hm2 : meanImage n G2 = some a := by
    rw [meanImage, if_neg (by rw [h2]; exact Bool.false_ne_true)]
  have hm3 : meanImage n G3 = some b := by
    rw [meanImage, if_neg (by rw [h3]; exact Bool.false_ne_true)]
  have hfit : fit n X y = ⟨some a, some b, some d, some (maxEntry n d), true⟩ := by
    simp only [fit, hm2, hm3]
  have hsel : ∀ t p, selPix n (fit n X y) t p = decide (t / 100 * maxEntry n d ≤ d p) := by
    intro t p
    rw [selPix, hfit, get_mask]
    simp
  have hd_le : ∀ p, d p ≤ maxEntry n d := by
    intro p
    exact le_foldr_max 0 ((List.mem_ofFn _ _).mpr ⟨p, rfl⟩)
  have hmax_nonneg : 0 ≤ maxEntry n d := seed_le_foldr_max _ 0
  constructor
  · intro p
    rw [hsel 0 p]
    apply decide_eq_true
    rw [zero_div, zero_mul]
    exact abs_nonneg _
  · intro t1 t2 ht1 ht95 hlt p hp
    rw [hsel t2 p] at hp
    rw [hsel t1 p]
    apply decide_eq_true
    have h2' := of_decide_eq_true hp
    calc t1 / 100 * maxEntry n d
        ≤ t2 / 100 * maxEntry n d := by
          apply mul_le_mul_of_nonneg_right _ hmax_nonneg
          linarith
      _ ≤ d p := h2'

/-- C1 witness: a concrete two-image dataset with one image of each class. -/
theorem C1_importance_mask_monotone_witness :
    ((labelGroup 1 2 sampleX sampleY).isEmpty = false ∧
        (labelGroup 1 3 sampleX sampleY).isEmpty = false) ∧
      ((∀ p, selPix 1 (fit 1 sampleX sampleY) 0 p = true) ∧
        (∀ t1 t2 : ℚ, 0 ≤ t1 → t2 ≤ 95 → t1 < t2 → ∀ p,
          selPix 1 (fit 1 sampleX sampleY) t2 p = true →
            selPix 1 (fit 1 sampleX sampleY) t1 p = true)) :=
  ⟨⟨by decide, by decide⟩,
    C1_importance_mask_monotone 1 sampleX sampleY (by decide) (by decide)⟩

/-- C2: `fit` on a dataset with only one label present (the label-3 group is
empty) does NOT surface an error: it silently completes, leaves the
all-NaN (`none`) difference map and maximum behind, still sets
`is_fitted = True`, and the subsequent `get_mask` quietly returns a
degenerate all-false mask instead of failing.  This contradicts the spec's
requirement that this case be surfaced as an explicit failure of `fit`. -/
theorem C2_fit_is_silently_degenerate :
    (fit 1 degenerateX degenerateY).isFitted = true ∧
      (fit 1 degenerateX degenerateY).diffMap.isNone = true ∧
      (fit 1 degenerateX degenerateY).maxDiff.isNone = true ∧
      ∀ p : Fin 1, selPix 1 (fit 1 degenerateX degenerateY) 30 p = false := by
  refine ⟨rfl, rfl, rfl, ?_⟩
  intro p
  rfl

/-- The batch loop of `aplicar_batch`: after folding over
`range(start, start + cnt)`, positions inside the range hold the pipeline
output of the raw image and every other position is untouched. -/
lemma batch_loop_getD (f : Raster → Raster) (raw : List Raster) :
    ∀ (cnt start : ℕ) (proc : List Raster), proc.length = raw.length →
      ∀ i : ℕ, i < raw.length →
        ((List.range' start cnt).foldl
            (fun acc j => acc.set j (f (raw.getD j raster0))) proc).getD i raster0 =
          if start ≤ i ∧ i < start + cnt then f (raw.getD i raster0)
          else proc.getD i raster0 := by
  intro cnt
  induction cnt with
  | zero =>
    intro start proc hlen i hi
    rw [List.range'_zero, List.foldl_nil, if_neg (by omega)]
  | succ k ih =>
    intro start proc hlen i hi
    rw [List.range'_succ, List.foldl_cons]
    rw [ih (start + 1) (proc.set start (f (raw.getD start raster0)))
      (by rw [List.length_set]; exact hlen) i hi]
    by_cases hin : start + 1 ≤ i ∧ i < start + 1 + k
    · rw [if_pos hin, if_pos (by omega)]
    · rw [if_neg hin]
      by_cases houter : start ≤ i ∧ i < start + (k + 1)
      · have hi_eq : i = start := by omega
        subst hi_eq
        rw [if_pos houter]
        rw [List.getD_eq_getElem?_getD, List.getElem?_set_self (by omega)]
        rfl
      · rw [if_neg houter]
        have hne : start ≠ i := by omega
        rw [List.getD_eq_getElem?_getD, List.getElem?_set_ne hne,
          ← List.getD_eq_getElem?_getD]

/-- C9: for every valid range `0 ≤ ini`, `fim < len(raw)` (and `processed`
of matching length), `aplicar_batch` leaves the raw array exactly as it
was and rewrites the processed array only at the indices of
`[ini, fim]` inclusive, each receiving the pipeline output of the raw
image at that index; every other processed entry keeps its old value. -/
theorem C9_apply_batch_range (f : Raster → Raster) (raw proc : List Raster) (ini fim : ℤ)
    (h0 : 0 ≤ ini) (h1 : fim < (raw.length : ℤ)) (hlen : proc.length = raw.length) :
    (aplicar_batch f raw proc ini fim).1 = raw ∧
      ∀ i : ℕ, i < raw.length →
        (aplicar_batch f raw proc ini fim).2.getD i raster0 =
          if ini ≤ (i : ℤ) ∧ (i : ℤ) ≤ fim then f (raw.getD i raster0)
          else proc.getD i raster0 := by
  have hguard : ¬ (ini < 0 ∨ (raw.length : ℤ) ≤ fim) := by omega
  constructor
  · rw [aplicar_batch, if_neg hguard]
  · intro i hi
    rw [aplicar_batch, if_neg hguard]
    dsimp only
    rw [batch_loop_getD f raw ((fim + 1 - ini).toNat) ini.toNat proc hlen i hi]
    exact if_congr (by omega) rfl rfl

/-- C9 witness: a one-image dataset, the identity pipeline, range [0, 0]. -/
theorem C9_apply_batch_range_witness :
    ((0 : ℤ) ≤ 0 ∧ (0 : ℤ) < ([imgRamp].length : ℤ) ∧ [imgUniform].length = [imgRamp].length) ∧
      ((aplicar_batch id [imgRamp] [imgUniform] 0 0).1 = [imgRamp] ∧
        ∀ i : ℕ, i < [imgRamp].length →
          (aplicar_batch id [imgRamp] [imgUniform] 0 0).2.getD i raster0 =
            if (0 : ℤ) ≤ (i : ℤ) ∧ (i : ℤ) ≤ 0 then id ([imgRamp].getD i raster0)
            else [imgUniform].getD i raster0) :=
  ⟨⟨by norm_num, by norm_num, by norm_num⟩,
    C9_apply_batch_range id [imgRamp] [imgUniform] 0 0 (by norm_num) (by norm_num) (by norm_num)⟩

/-- C4 counterexample: at scale 0.58 (in range, ≠ 1) the code computes
`int(20 * 0.58) = 11` new rows, while the claimed description resamples to
`round(20 * 0.58) = 12` rows; on the one-hot image the two resulting 20x20
canvases differ at pixel (5, 5) — the code puts the hot pixel there, the
round-based description does not. -/
theorem C4_rescale_round_counterexample :
    ((1 : ℚ) / 2 ≤ 29 / 50 ∧ (29 : ℚ) / 50 ≤ 5 / 2 ∧ (29 : ℚ) / 50 ≠ 1) ∧
      redimensionar_imagem_numpy imgOneHot (29 / 50) 5 5 ≠
        rescaleSpecRound imgOneHot (29 / 50) 5 5 := by
  have hne : (29 : ℚ) / 50 ≠ 1 := by norm_num
  have hcode : redimensionar_imagem_numpy imgOneHot (29 / 50) 5 5 = 1 := by
    have e1 : (pyInt (20 * (29 / 50 : ℚ))).toNat = 11 := by
      norm_num [pyInt]
      rfl
    simp only [redimensionar_imagem_numpy, if_neg hne, e1]
    norm_num [resampleIdx, imgOneHot]
  have hspec : rescaleSpecRound imgOneHot (29 / 50) 5 5 = 0 := by
    have e2 : (round (20 * (29 / 50 : ℚ))).toNat = 12 := by
      norm_num [round_eq]
      rfl
    simp only [rescaleSpecRound, refitCentered, e2]
    norm_num [resampleIdx, imgOneHot]
  refine ⟨⟨by norm_num, by norm_num, hne⟩, ?_⟩
  rw [hcode, hspec]
  norm_num

/-- C4 (amended): with the new grid side computed by truncation
`⌊scale * 20⌋` — as `int()` does — the code's rescale agrees pixel for
pixel with the claimed description: nearest-neighbor resample by
`newIndex ↦ ⌊newIndex * 20 / newN⌋`, then re-fit to the 20x20 canvas
centered on the resampled grid's integer midpoint, center-cropping when the
resampled grid is larger and zero-padding when smaller. -/
theorem C4_rescale_matches_floor_description (img : Raster) (escala : ℚ)
    (h1 : 1 / 2 ≤ escala) (h2 : escala ≤ 5 / 2) (h3 : escala ≠ 1) (r c : ℕ) :
    redimensionar_imagem_numpy img escala r c = rescaleSpecFloor img escala r c := by
  have hpos : ¬ (20 * escala < 0) := by
    apply not_lt.mpr
    linarith
  have hpy : pyInt (20 * escala) = ⌊20 * escala⌋ := if_neg hpos
  have h10 : (10 : ℤ) ≤ ⌊20 * escala⌋ := by
    rw [Int.le_floor]
    push_cast
    linarith
  have h50 : ⌊20 * escala⌋ ≤ 50 := by
    calc ⌊20 * escala⌋ ≤ ⌊((50 : ℤ) : ℚ)⌋ := Int.floor_le_floor (by push_cast; linarith)
      _ = 50 := Int.floor_intCast 50
  simp only [redimensionar_imagem_numpy, rescaleSpecFloor, refitCentered, if_neg h3, hpy]
  set z : ℤ := ⌊20 * escala⌋ with hz
  clear_value z
  split_ifs with hA hB
  · congr 1 <;> congr 1 <;> omega
  · exfalso
    omega
  · exfalso
    omega
  · rfl

/-- C4 witness for the amended law: scale 1.5 on the one-hot image at pixel
(7, 7). -/
theorem C4_rescale_matches_floor_description_witness :
    ((1 : ℚ) / 2 ≤ 3 / 2 ∧ (3 : ℚ) / 2 ≤ 5 / 2 ∧ (3 : ℚ) / 2 ≠ 1) ∧
      redimensionar_imagem_numpy imgOneHot (3 / 2) 7 7 = rescaleSpecFloor imgOneHot (3 / 2) 7 7 :=
  ⟨⟨by norm_num, by norm_num, by norm_num⟩,
    C4_rescale_matches_floor_description imgOneHot (3 / 2) (by norm_num) (by norm_num)
      (by norm_num) 7 7⟩
